import Mathlib

/-!
Shallow embedding of the ethosUSD-tempo server core (Deno/TypeScript) used to
check the natural-language specification against the code.

Embedded source files:
* `src/lib/ethos.ts` — score provider client (`getScoreByAddress`,
  `getScoresByAddresses`, `filterEligibleAddresses`, `MIN_ETHOS_SCORE`);
* `src/lib/whitelist.ts` — reconciliation (`syncWhitelist`,
  `addToWhitelistIfEligible`);
* `src/lib/claims.ts` — claim ledger (`hasClaimedOnChain`, `getClaimRecord`,
  `getClaimableAmount`);
* `src/routes/api/claim.ts` — claim endpoint handler;
* `src/lib/tempo.ts` — `formatTokenAmount` / `parseTokenAmount`.

Modelling conventions:
* External I/O (HTTP fetches, RPC reads/writes, the claims file) is passed in
  as explicit environment records; a JavaScript `throw` is an `Except.error`.
* JavaScript numbers are embedded as `JsNum` (NaN, signed infinity, or the
  exact rational value of the finite double); bigints as `Int`/`Nat`.
* Addresses are `String`s; `String.prototype.toLowerCase()` on the ASCII
  strings used here is `toLowerJS`.
* The module-level in-memory cache `whitelistedAddresses` of
  `src/lib/whitelist.ts` is write-only bookkeeping (only read by the
  presentation helper `isWhitelisted`) and is not modelled.
-/

namespace EthosUSD

/-! ### JavaScript primitives -/

/-- Embedding of `String.prototype.toLowerCase()` for the ASCII strings
(addresses, hex digits) this code handles. -/
def toLowerJS (s : String) : String := ⟨s.data.map Char.toLower⟩

/-- A JavaScript number: NaN, a signed infinity, or a finite double given by
the exact rational it denotes. -/
inductive JsNum where
  | nan : JsNum
  | inf (pos : Bool) : JsNum
  | fin (q : ℚ) : JsNum
deriving DecidableEq

/-- Embedding of the JavaScript comparison `x > 0` (false on NaN). -/
def JsNum.gtZero : JsNum → Bool
  | .nan => false
  | .inf pos => pos
  | .fin q => decide (0 < q)

/-- Embedding of the JavaScript strict equality `x === 0` (false on NaN and
infinities). -/
def JsNum.eqZero : JsNum → Bool
  | .nan => false
  | .inf _ => false
  | .fin q => decide (q = 0)

/-- Embedding of `BigInt(Math.floor(x))`: `Math.floor` of a finite double is
exact (every double is a rational and its floor is exactly representable), and
`BigInt` of a non-finite number throws a `RangeError`. -/
def jsFloorToBigInt : JsNum → Except String Int
  | .nan => .error "RangeError: Cannot convert NaN to a BigInt"
  | .inf _ => .error "RangeError: Cannot convert Infinity to a BigInt"
  | .fin q => .ok ⌊q⌋

/-- Result of an awaited `fetch`: either the promise rejects (network error)
or a response arrives with an HTTP status and a parsed JSON body. -/
inductive HttpOutcome (α : Type) where
  | networkError (msg : String) : HttpOutcome α
  | response (status : Nat) (body : α) : HttpOutcome α

/-- Embedding of `Response.ok` (status in the 2xx range). -/
def respOk (status : Nat) : Bool := 200 ≤ status && status < 300

/-! ### `src/lib/ethos.ts` — score provider client -/

/-- Minimum score required to be whitelisted (`MIN_ETHOS_SCORE`). -/
def MIN_ETHOS_SCORE : Int := 1400

/-- Parsed JSON score object as delivered by the provider; each field may be
absent (the code applies `?? 0` to `score`). -/
structure RawScore where
  score : Option Int
  reviews : Option Int
  vouches : Option Int
deriving DecidableEq

/-- The `EthosScore` interface of `src/lib/ethos.ts`. -/
structure EthosScore where
  score : Int
  reviews : Option Int
  vouches : Option Int
deriving DecidableEq

/-- Normalization `{score: data.score ?? 0, reviews: data.reviews, vouches:
data.vouches}` applied to a parsed score object. -/
def normalizeScore (r : RawScore) : EthosScore :=
  { score := r.score.getD 0, reviews := r.reviews, vouches := r.vouches }

/-- Body of the `try` block of `getScoreByAddress` (`src/lib/ethos.ts:288`):
404 yields `null`, any other non-2xx status throws `Ethos API error`, a 2xx
response is normalized. A rejected fetch is a thrown network error. -/
def getScoreByAddressTry (o : HttpOutcome RawScore) : Except String (Option EthosScore) :=
  match o with
  | .networkError msg => .error msg
  | .response status body =>
    if !respOk status then
      if status = 404 then .ok none
      else .error ("Ethos API error: " ++ toString status)
    else .ok (some (normalizeScore body))

/-- `getScoreByAddress` (`src/lib/ethos.ts:288-316`): the whole `try` body is
wrapped in a `catch` that logs and returns `null`, so every failure — including
the `Ethos API error` the body itself throws — comes back as `null`. -/
def getScoreByAddress (o : HttpOutcome RawScore) : Option EthosScore :=
  match getScoreByAddressTry o with
  | .ok v => v
  | .error _ => none

/-- Assignment `result[key] = v` on a JavaScript object modelled as an
association list: overwrites in place if the key exists, else appends. -/
def setKey {α : Type} (m : List (String × α)) (k : String) (v : α) :
    List (String × α) :=
  if m.any (fun p => p.1 = k) then
    m.map (fun p => if p.1 = k then (k, v) else p)
  else m ++ [(k, v)]

/-- Association-list lookup (`Map.get` / object indexing). -/
def getKey {α : Type} (m : List (String × α)) (k : String) : Option α :=
  (m.find? (fun p => p.1 = k)).map (·.2)

/-- Body of the `try` block of `getScoresByAddresses`
(`src/lib/ethos.ts:324-358`): non-2xx throws, otherwise for each requested
address the entry `data[address.toLowerCase()] || data[address]` is normalized
into `result[address.toLowerCase()]` (or `null` when absent). -/
def getScoresByAddressesTry (o : HttpOutcome (String → Option RawScore))
    (addresses : List String) : Except String (List (String × Option EthosScore)) :=
  match o with
  | .networkError msg => .error msg
  | .response status data =>
    if !respOk status then .error ("Ethos API error: " ++ toString status)
    else
      .ok (addresses.foldl
        (fun result address =>
          let scoreData :=
            match data (toLowerJS address) with
            | some v => some v
            | none => data address
          match scoreData with
          | some v => setKey result (toLowerJS address) (some (normalizeScore v))
          | none => setKey result (toLowerJS address) none)
        [])

/-- `getScoresByAddresses` (`src/lib/ethos.ts:319-363`): an empty request
returns the empty object, and the surrounding `catch` turns every failure —
including the thrown `Ethos API error` — into the empty object `{}`. -/
def getScoresByAddresses (o : HttpOutcome (String → Option RawScore))
    (addresses : List String) : List (String × Option EthosScore) :=
  if addresses.isEmpty then []
  else
    match getScoresByAddressesTry o addresses with
    | .ok result => result
    | .error _ => []

/-- `filterEligibleAddresses` (`src/lib/ethos.ts:372-389`): walks the bulk
response entries; pushes the key onto `eligible` when the score meets
`MIN_ETHOS_SCORE`, and records every non-null score in the score map. -/
def filterEligibleAddresses (scores : List (String × Option EthosScore)) :
    List String × List (String × Int) :=
  scores.foldl
    (fun acc entry =>
      let eligible :=
        match entry.2 with
        | some s => if MIN_ETHOS_SCORE ≤ s.score then acc.1 ++ [entry.1] else acc.1
        | none => acc.1
      let scoreMap :=
        match entry.2 with
        | some s => setKey acc.2 (toLowerJS entry.1) s.score
        | none => acc.2
      (eligible, scoreMap))
    ([], [])

/-! ### `src/lib/tempo.ts` — token amount formatting -/

/-- Decimal digit character for a digit value below ten. -/
def digitChar (d : Nat) : Char := Char.ofNat (48 + d)

/-- Little-endian decimal digits of `n`, with explicit fuel so the definition
is structural (kernel-reducible); `fuel ≥ n` suffices. -/
def toDigitsRev : Nat → Nat → List Nat
  | 0, _ => []
  | fuel + 1, n => if n = 0 then [] else (n % 10) :: toDigitsRev fuel (n / 10)

/-- Embedding of `BigInt.prototype.toString()` for a non-negative value: the
usual decimal numeral. -/
def natToString (n : Nat) : List Char :=
  if n = 0 then ['0'] else (toDigitsRev n n).reverse.map digitChar

/-- Grouping pass of `String.prototype.toLocaleString` over the reversed
digit list: after every three digits, if more remain, a group separator is
inserted. -/
def groupRev : List Char → List Char
  | a :: b :: c :: rest =>
    if rest.isEmpty then [a, b, c] else a :: b :: c :: ',' :: groupRev rest
  | l => l

/-- Embedding of `BigInt.prototype.toLocaleString()` under the default en-US
locale used by the runtime: decimal digits with `,` as the thousands group
separator. -/
def natToLocaleString (n : Nat) : List Char :=
  (groupRev (natToString n).reverse).reverse

/-- Embedding of `String.prototype.padStart(len, "0")`. -/
def padStartZeros (len : Nat) (s : List Char) : List Char :=
  List.replicate (len - s.length) '0' ++ s

/-- Embedding of `.replace(/0+$/, "")`: removes the trailing run of zeros. -/
def stripTrailingZeros (s : List Char) : List Char :=
  (s.reverse.dropWhile (fun c => c = '0')).reverse

/-- `formatTokenAmount` (`src/lib/tempo.ts:61-72`) on a non-negative bigint
amount with the default `decimals = 6`: integer part rendered with
`toLocaleString()`, and a nonzero fractional part padded to six digits with
trailing zeros stripped. -/
def formatTokenAmount (amount : Nat) : String :=
  let divisor := 10 ^ 6
  let integerPart := amount / divisor
  let fractionalPart := amount % divisor
  if fractionalPart = 0 then ⟨natToLocaleString integerPart⟩
  else
    ⟨natToLocaleString integerPart ++ '.' ::
      stripTrailingZeros (padStartZeros 6 (natToString fractionalPart))⟩

/-- Characters of a string up to the first `.`, and the remainder after it
(`none` when there is no dot) — the first two components of
`String.prototype.split(".")`. -/
def splitAtDot : List Char → List Char × Option (List Char)
  | [] => ([], none)
  | c :: rest =>
    if c = '.' then ([], some rest)
    else
      let r := splitAtDot rest
      (c :: r.1, r.2)

/-- Decimal-digit test on a character (code points 48–57). -/
def isDigitCh (c : Char) : Bool := 48 ≤ c.toNat && c.toNat ≤ 57

/-- Numeric value of a big-endian decimal digit string. -/
def strVal (s : List Char) : Nat :=
  s.foldl (fun acc c => 10 * acc + (c.toNat - 48)) 0

/-- Embedding of `BigInt(string)` on the strings this code produces: the empty
string is `0n`, a nonempty all-digit string is its value, and anything else
(such as a string containing a locale group separator) throws a
`SyntaxError`. -/
def parseBigInt (s : List Char) : Except String Nat :=
  if s.all isDigitCh then .ok (strVal s)
  else .error "SyntaxError: Cannot convert string to a BigInt"

/-- `parseTokenAmount` (`src/lib/tempo.ts:75-79`) with the default
`decimals = 6`: splits on `.`, pads/truncates the fractional part to six
digits, and converts the concatenation with `BigInt` (which can throw). -/
def parseTokenAmount (s : String) : Except String Nat :=
  let parts := splitAtDot s.data
  let integerPart := parts.1
  let fractionalPart :=
    match parts.2 with
    | none => []
    | some rest => (splitAtDot rest).1
  let paddedFractional :=
    (fractionalPart ++ List.replicate (6 - fractionalPart.length) '0').take 6
  parseBigInt (integerPart ++ paddedFractional)

/-! ### `src/lib/whitelist.ts` — reconciliation engine -/

/-- Deterministic environment for one `syncWhitelist` invocation: the
configured policy id (`CONTRACTS.POLICY_ID`), the outcome of the bulk score
fetch, and per-address oracles saying whether the `isAuthorized` read throws
and whether a `modifyPolicyWhitelist` write (plus receipt wait) throws.
Oracles are keyed by the lower-cased address. -/
structure SyncEnv where
  policyId : Nat
  bulkFetch : HttpOutcome (String → Option RawScore)
  readFails : String → Bool
  writeFails : String → Bool → Bool

/-- The `WhitelistSyncResult` interface (`src/lib/whitelist.ts:39-45`). -/
structure WhitelistSyncResult where
  checked : Nat
  added : List String
  removed : List String
  scores : List (String × Int)
  errors : List String
deriving DecidableEq

/-- The per-address loop of `syncWhitelist` (`src/lib/whitelist.ts:84-128`),
threading the on-chain authorization state. Returns the `added`, `removed`
and `errors` accumulated from this point on, plus the final chain state.
The `isAuthorized` read is *not* inside a per-address `try`, so a read throw
escapes to the function-level `catch`, which records `Sync failed` and
returns — abandoning all remaining addresses. Each write *is* wrapped, so a
write throw only records `Failed to add/remove` and the loop continues. -/
def syncLoop (env : SyncEnv) (eligible : List String) :
    List String → (String → Bool) →
    List String × List String × List String × (String → Bool)
  | [], auth => ([], [], [], auth)
  | address :: rest, auth =>
    let n := toLowerJS address
    if env.readFails n then
      ([], [], ["Sync failed: Error: isAuthorized read failed for " ++ n], auth)
    else
      let isCurrentlyAuthorized := auth n
      let shouldBeAuthorized := eligible.contains n
      if shouldBeAuthorized && !isCurrentlyAuthorized then
        if env.writeFails n true then
          let r := syncLoop env eligible rest auth
          (r.1, r.2.1, ("Failed to add " ++ n) :: r.2.2.1, r.2.2.2)
        else
          let auth' := fun x => if x = n then true else auth x
          let r := syncLoop env eligible rest auth'
          (n :: r.1, r.2.1, r.2.2.1, r.2.2.2)
      else if !shouldBeAuthorized && isCurrentlyAuthorized then
        if env.writeFails n false then
          let r := syncLoop env eligible rest auth
          (r.1, r.2.1, ("Failed to remove " ++ n) :: r.2.2.1, r.2.2.2)
        else
          let auth' := fun x => if x = n then false else auth x
          let r := syncLoop env eligible rest auth'
          (r.1, n :: r.2.1, r.2.2.1, r.2.2.2)
      else
        syncLoop env eligible rest auth

/-- `syncWhitelist` (`src/lib/whitelist.ts:48-135`) with an explicit candidate
list and starting chain-authorization state: records `checked`, returns early
on an empty list, fetches and classifies scores, refuses on a zero policy id,
and otherwise runs the reconciliation loop. Returns the `WhitelistSyncResult`
together with the final chain state. -/
def syncWhitelist (env : SyncEnv) (addresses : List String)
    (auth : String → Bool) : WhitelistSyncResult × (String → Bool) :=
  if addresses.isEmpty then
    ({ checked := addresses.length, added := [], removed := [], scores := [],
       errors := [] }, auth)
  else
    let classified := filterEligibleAddresses (getScoresByAddresses env.bulkFetch addresses)
    let eligible := classified.1
    let scoreMap := classified.2
    if env.policyId = 0 then
      ({ checked := addresses.length, added := [], removed := [],
         scores := scoreMap, errors := ["ETHOS_POLICY_ID not configured"] }, auth)
    else
      let r := syncLoop env eligible addresses auth
      ({ checked := addresses.length, added := r.1, removed := r.2.1,
         scores := scoreMap, errors := r.2.2.1 }, r.2.2.2)

/-- Return shape of `addToWhitelistIfEligible`. -/
structure AddResult where
  success : Bool
  score : Option Int
  error : Option String
deriving DecidableEq

/-- `addToWhitelistIfEligible` (`src/lib/whitelist.ts:165-202`): classifies
the single address, rejects with the score message when ineligible, refuses
on a zero policy id, and otherwise issues the add (whose throw is caught and
stringified). -/
def addToWhitelistIfEligible (env : SyncEnv) (address : String)
    (auth : String → Bool) : AddResult × (String → Bool) :=
  let classified := filterEligibleAddresses (getScoresByAddresses env.bulkFetch [address])
  let score := getKey classified.2 (toLowerJS address)
  if !classified.1.contains (toLowerJS address) then
    ({ success := false, score := score,
       error := some ("Score " ++ (match score with
         | some s => toString s
         | none => "unknown") ++ " is below minimum " ++ toString MIN_ETHOS_SCORE) }, auth)
  else if env.policyId = 0 then
    ({ success := false, score := score, error := some "Policy not configured" }, auth)
  else if env.writeFails (toLowerJS address) true then
    ({ success := false, score := none, error := some "Error: modifyPolicyWhitelist failed" }, auth)
  else
    ({ success := true, score := score, error := none },
     fun x => if x = toLowerJS address then true else auth x)

/-! ### `src/lib/claims.ts` — claim ledger -/

/-- The `ClaimRecord` interface (`src/lib/claims.ts:43-49`). -/
structure ClaimRecord where
  address : String
  amount : Int
  xp : JsNum
  txHash : String
  timestamp : Int
deriving DecidableEq

/-- The `EthosUserData` interface (`src/lib/ethos.ts:230-236`); `xp` is a
JavaScript number (it can be fractional). -/
structure EthosUserData where
  score : Int
  xp : JsNum
  reviews : Int
  vouches : Int
  vouchesReceived : Int
deriving DecidableEq

/-- Environment for claim-ledger queries about one address: the outcome of
the `balanceOf` RPC read, the parsed claims file (keys already lower-cased by
`loadClaims`), and the results of the two provider lookups. `getUserData` and
`getScoreByAddress` both wrap their bodies in a catch that returns `null`, so
their results are plain options (see `getScoreByAddress` above). -/
structure ClaimsEnv where
  balanceResult : Except String Nat
  localClaims : List (String × ClaimRecord)
  userData : Option EthosUserData
  scoreData : Option EthosScore

/-- `hasClaimedOnChain` (`src/lib/claims.ts:22-41`): `balance > 0n`, with the
whole RPC read wrapped in a catch that logs and returns `false`. -/
def hasClaimedOnChain (env : ClaimsEnv) : Bool :=
  match env.balanceResult with
  | .ok balance => decide (0 < balance)
  | .error _ => false

/-- `getClaimRecord` (`src/lib/claims.ts:105-108`): lookup of the lower-cased
address in the freshly loaded claims map. -/
def getClaimRecord (env : ClaimsEnv) (address : String) : Option ClaimRecord :=
  getKey env.localClaims (toLowerJS address)

/-- Return shape of `getClaimableAmount` (`src/lib/claims.ts:135-143`). -/
structure ClaimStatus where
  canClaim : Bool
  amount : Int
  xp : JsNum
  score : Option Int
  alreadyClaimed : Bool
  claimRecord : Option ClaimRecord
  error : Option String
deriving DecidableEq

/-- Fallback tail of `getClaimableAmount` (`src/lib/claims.ts:185-212`): the
plain-score lookup with its two distinct error messages ("no profile" versus
"profile but no XP"/"unable to fetch"), reached when the XP path did not grant
a claim. -/
def claimFallback (env : ClaimsEnv) : Except String ClaimStatus :=
  match env.scoreData with
  | none =>
    .ok { canClaim := false, amount := 0, xp := .fin 0, score := none,
          alreadyClaimed := false, claimRecord := none,
          error := some "No Ethos profile found. Create one at ethos.network to earn Contributor XP." }
  | some scoreData =>
    let xp := (env.userData.map (·.xp)).getD (.fin 0)
    .ok { canClaim := false, amount := 0, xp := xp,
          score := some scoreData.score, alreadyClaimed := false,
          claimRecord := none,
          error := some (if xp.eqZero then
            "You have an Ethos profile but no Contributor XP yet. Earn XP by contributing to Ethos!"
          else
            "Unable to fetch your Contributor XP. Please try again later.") }

/-- `getClaimableAmount` (`src/lib/claims.ts:135-212`): on-chain balance proxy
first, then the local ledger, then the XP path
(`BigInt(Math.floor(userData.xp)) * 1_000_000n`, which throws on a non-finite
`xp`), then the plain-score fallback `claimFallback`. The function itself has
no `try`, so a throw propagates to the caller. -/
def getClaimableAmount (env : ClaimsEnv) (address : String) :
    Except String ClaimStatus :=
  if hasClaimedOnChain env then
    let existingClaim := getClaimRecord env address
    .ok { canClaim := false, amount := 0,
          xp := (existingClaim.map (·.xp)).getD (.fin 0), score := none,
          alreadyClaimed := true, claimRecord := existingClaim, error := none }
  else
    match getClaimRecord env address with
    | some existingClaim =>
      .ok { canClaim := false, amount := 0, xp := existingClaim.xp,
            score := none, alreadyClaimed := true,
            claimRecord := some existingClaim, error := none }
    | none =>
      match env.userData with
      | some userData =>
        if userData.xp.gtZero then
          match jsFloorToBigInt userData.xp with
          | .error e => .error e
          | .ok f =>
            .ok { canClaim := true, amount := f * 1000000, xp := userData.xp,
                  score := some userData.score, alreadyClaimed := false,
                  claimRecord := none, error := none }
        else claimFallback env
      | none => claimFallback env

/-! ### `src/routes/api/claim.ts` — claim endpoint handler -/

/-- The ambient `CONTRACTS` configuration (`src/lib/contracts.ts`): the route
imports it for the token address; the policy id lives in the same record but
is never consulted by the claim path. -/
structure Config where
  policyId : Nat
  ethosUsdToken : String
  tip403Registry : String

/-- Parsed JSON body of a claim request; `none` models an absent field, and
`timestamp` is restricted to the number-or-absent shapes relevant here. -/
structure ClaimRequest where
  address : Option String
  signature : Option String
  timestamp : Option Int

/-- Environment for one claim-route invocation: the current time
(`Date.now()`), the outcome of `verifyMessage` (a throw is caught as
`Invalid signature format`), the claim-ledger environment, and the outcome of
the mint write: a throw, or a transaction hash with the receipt status. The
mint oracle takes the token address, recipient and amount actually passed. -/
structure ClaimRouteEnv where
  now : Int
  verifySig : Except String Bool
  claims : ClaimsEnv
  mint : String → String → Int → Except String (String × String)

/-- Maximum age of a valid signature (`src/routes/api/claim.ts:14`). -/
def MAX_SIGNATURE_AGE_MS : Int := 5 * 60 * 1000

/-- Address-format check of `src/routes/api/claim.ts:39`:
`/^0x[a-fA-F0-9]{40}$/`. -/
def isValidAddressFormat (s : String) : Bool :=
  match s.data with
  | '0' :: 'x' :: rest =>
    rest.length = 40 && rest.all (fun c =>
      (48 ≤ c.toNat && c.toNat ≤ 57) ||
      (97 ≤ c.toNat && c.toNat ≤ 102) ||
      (65 ≤ c.toNat && c.toNat ≤ 70))
  | _ => false

/-- Observable outcome of one claim-route invocation: the HTTP status, the
JSON `success`/`error` fields, whether a mint transaction was submitted, and
whether `recordClaim` wrote the ledger. -/
structure ClaimResponse where
  status : Nat
  success : Bool
  error : Option String
  mintAttempted : Bool
  ledgerWritten : Bool
  txHash : Option String
  amount : Option Int
deriving DecidableEq

/-- Tail of the claim handler after the freshness check
(`src/routes/api/claim.ts:55-154`): signature verification, eligibility via
`getClaimableAmount` (whose throw lands in the outer catch as a 500), then the
mint, receipt check, and ledger write. Factored out so that "the request
proceeds past the freshness gate" is a statable equation. No step consults the
policy id. -/
def claimVerifyStage (cfg : Config) (env : ClaimRouteEnv) (address : String) :
    ClaimResponse :=
  match env.verifySig with
  | .error _ =>
    { status := 400, success := false, error := some "Invalid signature format",
      mintAttempted := false, ledgerWritten := false, txHash := none, amount := none }
  | .ok false =>
    { status := 403, success := false,
      error := some "Invalid signature. Please sign with the correct wallet.",
      mintAttempted := false, ledgerWritten := false, txHash := none, amount := none }
  | .ok true =>
    match getClaimableAmount env.claims address with
    | .error e =>
      { status := 500, success := false, error := some e,
        mintAttempted := false, ledgerWritten := false, txHash := none, amount := none }
    | .ok claimStatus =>
      if !claimStatus.canClaim then
        { status := 400, success := false,
          error := some (if claimStatus.alreadyClaimed then
              "You have already claimed your $ethosUSD"
            else claimStatus.error.getD "Not eligible to claim"),
          mintAttempted := false, ledgerWritten := false, txHash := none, amount := none }
      else
        match env.mint cfg.ethosUsdToken address claimStatus.amount with
        | .error e =>
          { status := 500, success := false, error := some e,
            mintAttempted := true, ledgerWritten := false, txHash := none, amount := none }
        | .ok (mintHash, receiptStatus) =>
          if receiptStatus ≠ "success" then
            { status := 500, success := false, error := some "Mint transaction failed",
              mintAttempted := true, ledgerWritten := false, txHash := none, amount := none }
          else
            { status := 200, success := true, error := none,
              mintAttempted := true, ledgerWritten := true,
              txHash := some mintHash, amount := some claimStatus.amount }

/-- The claim handler `handler.POST` (`src/routes/api/claim.ts:16-156`):
field-presence checks (JavaScript falsiness: an absent or empty address or
signature, and an absent or zero timestamp, are rejected), address format,
signature freshness, then the verification/mint stage above. -/
def claimHandler (cfg : Config) (env : ClaimRouteEnv) (req : ClaimRequest) :
    ClaimResponse :=
  if req.address = none ∨ req.address = some "" then
    { status := 400, success := false, error := some "Address required",
      mintAttempted := false, ledgerWritten := false, txHash := none, amount := none }
  else if req.signature = none ∨ req.signature = some "" ∨
      req.timestamp = none ∨ req.timestamp = some 0 then
    { status := 400, success := false, error := some "Signature verification required",
      mintAttempted := false, ledgerWritten := false, txHash := none, amount := none }
  else
    let address := toLowerJS ((req.address.getD ""))
    if !isValidAddressFormat address then
      { status := 400, success := false, error := some "Invalid address format",
        mintAttempted := false, ledgerWritten := false, txHash := none, amount := none }
    else
      let timestamp := req.timestamp.getD 0
      if timestamp > env.now ∨ env.now - timestamp > MAX_SIGNATURE_AGE_MS then
        { status := 400, success := false,
          error := some "Signature expired. Please try again.",
          mintAttempted := false, ledgerWritten := false, txHash := none, amount := none }
      else
        claimVerifyStage cfg env address

/-! ### Concrete fixtures used by closed theorems -/

/-- A well-formed checksum address used in concrete runs. -/
def sampleAddress : String := "0xAb5801a7D398351b8bE11C439e05C5B3259aeC9B"

/-- Claim-ledger environment: zero balance, empty ledger, a user with 250 XP. -/
def sampleClaims : ClaimsEnv := ⟨.ok 0, [], some ⟨1500, .fin 250, 3, 1, 2⟩, none⟩

/-- Claim-route environment: clock at 300001 ms, valid signature, successful
mint. -/
def sampleRoute : ClaimRouteEnv :=
  ⟨300001, .ok true, sampleClaims, fun _ _ _ => .ok ("0xhash", "success")⟩

/-- A `CONTRACTS` configuration whose policy id is the zero sentinel. -/
def zeroPolicyConfig : Config :=
  ⟨0, "0x20c0000000000000000000000000000000000726",
   "0x403c000000000000000000000000000000000000"⟩

/-- Sync environment where the `isAuthorized` read throws for `0xa` and the
provider reports a qualifying score for `0xb`. -/
def readFailEnv : SyncEnv :=
  ⟨7, .response 200 (fun x => if x = "0xb" then some ⟨some 1500, none, none⟩ else none),
   fun x => x == "0xa", fun _ _ => false⟩

/-- Same as `readFailEnv` but with every read succeeding. -/
def readOkEnv : SyncEnv :=
  ⟨7, .response 200 (fun x => if x = "0xb" then some ⟨some 1500, none, none⟩ else none),
   fun _ => false, fun _ _ => false⟩

/-- Claim-ledger environment whose provider reports a positive-infinite XP
(JSON number `1e999` parses to `Infinity`). -/
def infXpClaims : ClaimsEnv := ⟨.ok 0, [], some ⟨1500, .inf true, 3, 1, 2⟩, none⟩

/-! ### Helper lemmas -/

theorem hasClaimedOnChain_error {env : ClaimsEnv} {e : String}
    (hb : env.balanceResult = .error e) : hasClaimedOnChain env = false := by
  simp [hasClaimedOnChain, hb]

theorem hasClaimedOnChain_pos {env : ClaimsEnv} {b : Nat}
    (hb : env.balanceResult = .ok b) (hpos : 0 < b) :
    hasClaimedOnChain env = true := by
  simp [hasClaimedOnChain, hb, hpos]

/-! ### Claim theorems -/

/-- C6 (code_bug): the claim says the single-address score lookup returns
`null` only on a definitive 404 and propagates every other failure as a
thrown error. The `try` body of `getScoreByAddress` indeed throws
`Ethos API error: 500` on a server error, but the function's own `catch`
swallows exactly that throw and returns `null`, so an HTTP 500 (or a network
error) is indistinguishable from the 404 no-profile answer. -/
theorem C6_provider_error_returns_null :
    getScoreByAddressTry (.response 500 ⟨none, none, none⟩) =
      .error "Ethos API error: 500" ∧
    getScoreByAddress (.response 500 ⟨none, none, none⟩) = none ∧
    getScoreByAddress (.networkError "TypeError: fetch failed") = none ∧
    getScoreByAddress (.response 404 ⟨none, none, none⟩) = none :=
  ⟨rfl, rfl, rfl, rfl⟩

/-- C1 (code_bug): the claim says a total provider outage yields
`added=[], removed=[]`, a top-level error, and no on-chain writes, so that no
previously-authorized address is deauthorized by a transient failure. In the
code, `getScoresByAddresses` catches its own failure and returns the empty
object, so `syncWhitelist` sees an empty eligible set and — with the policy
configured and the chain reachable — issues an on-chain *remove* for the
previously-authorized candidate `0xa`, reporting no error at all: here the
result is `checked=1, added=[], removed=["0xa"], errors=[]` and the final
chain state has `0xa` deauthorized. -/
theorem C1_outage_treated_as_ineligible :
    (syncWhitelist
        ⟨7, .networkError "TypeError: fetch failed", fun _ => false, fun _ _ => false⟩
        ["0xA"] (fun x => x == "0xa")).1 =
      { checked := 1, added := [], removed := ["0xa"], scores := [], errors := [] } ∧
    (syncWhitelist
        ⟨7, .networkError "TypeError: fetch failed", fun _ => false, fun _ _ => false⟩
        ["0xA"] (fun x => x == "0xa")).2 "0xa" = false :=
  ⟨rfl, rfl⟩

/-- C4 (confirmed): whenever the on-chain balance read succeeds with a
positive balance, `getClaimableAmount` answers `alreadyClaimed = true`,
`canClaim = false` and amount `0` — whatever the local claims file contains
(the environment, including `localClaims`, is arbitrary). -/
theorem C4_positive_balance_means_already_claimed (env : ClaimsEnv)
    (address : String) (b : Nat) (hb : env.balanceResult = .ok b)
    (hpos : 0 < b) :
    getClaimableAmount env address =
      .ok { canClaim := false, amount := 0,
            xp := ((getClaimRecord env address).map (·.xp)).getD (.fin 0),
            score := none, alreadyClaimed := true,
            claimRecord := getClaimRecord env address, error := none } := by
  unfold getClaimableAmount
  rw [hasClaimedOnChain_pos hb hpos]
  simp

/-- Witness for C4: a concrete address with balance 5 and an empty local
ledger is reported as already claimed and unable to claim. -/
theorem C4_witness :
    (⟨.ok 5, [], none, none⟩ : ClaimsEnv).balanceResult = .ok 5 ∧ 0 < 5 ∧
    getClaimableAmount (⟨.ok 5, [], none, none⟩ : ClaimsEnv) "0xE" =
      .ok { canClaim := false, amount := 0, xp := .fin 0, score := none,
            alreadyClaimed := true, claimRecord := none, error := none } :=
  ⟨rfl, by decide,
    C4_positive_balance_means_already_claimed ⟨.ok 5, [], none, none⟩ "0xE" 5 rfl
      (by decide)⟩

/-- C10 (confirmed): if the balance RPC itself throws, `hasClaimedOnChain`
returns `false` instead of surfacing the failure, and `getClaimableAmount`
behaves exactly as if the balance were zero — the anti-double-mint check is
silently skipped and the claim path falls through to the local ledger and
provider checks. -/
theorem C10_balance_error_silently_skipped (env : ClaimsEnv) (address : String)
    (e : String) (hb : env.balanceResult = .error e) :
    hasClaimedOnChain env = false ∧
    getClaimableAmount env address =
      getClaimableAmount { env with balanceResult := .ok 0 } address := by
  refine ⟨hasClaimedOnChain_error hb, ?_⟩
  unfold getClaimableAmount
  rw [hasClaimedOnChain_error hb]
  have h2 : hasClaimedOnChain { env with balanceResult := .ok 0 } = false := by
    simp [hasClaimedOnChain]
  rw [h2]
  simp [getClaimRecord, claimFallback]

/-- Witness for C10: with the balance RPC failing, an address with 250 XP and
no local record still gets `canClaim = true` — the claim proceeds although
the balance check never ran. -/
theorem C10_witness :
    (⟨.error "rpc down", [], some ⟨1500, .fin 250, 3, 1, 2⟩, none⟩ : ClaimsEnv).balanceResult =
      .error "rpc down" ∧
    hasClaimedOnChain (⟨.error "rpc down", [], some ⟨1500, .fin 250, 3, 1, 2⟩, none⟩ : ClaimsEnv) = false ∧
    getClaimableAmount (⟨.error "rpc down", [], some ⟨1500, .fin 250, 3, 1, 2⟩, none⟩ : ClaimsEnv) "0xD" =
      getClaimableAmount
        ({ (⟨.error "rpc down", [], some ⟨1500, .fin 250, 3, 1, 2⟩, none⟩ : ClaimsEnv) with
           balanceResult := .ok 0 }) "0xD" :=
  ⟨rfl,
    (C10_balance_error_silently_skipped _ "0xD" "rpc down" rfl).1,
    (C10_balance_error_silently_skipped _ "0xD" "rpc down" rfl).2⟩

/-- C2 (corrected, amended): on a zero policy id the whitelist sync refuses
with the configuration error (attempting no writes: the chain state comes back
untouched), and so does the single-address add for an eligible address — but
the claim route performs no policy-id check at all: its outcome is independent
of the configured policy id. -/
theorem C2_zero_policy_sync_refuses_claim_ignores (env : SyncEnv)
    (addresses : List String) (auth : String → Bool)
    (hp : env.policyId = 0) (hne : addresses ≠ []) :
    (syncWhitelist env addresses auth =
      ({ checked := addresses.length, added := [], removed := [],
         scores := (filterEligibleAddresses
           (getScoresByAddresses env.bulkFetch addresses)).2,
         errors := ["ETHOS_POLICY_ID not configured"] }, auth)) ∧
    (∀ (address : String) (auth' : String → Bool),
      (filterEligibleAddresses (getScoresByAddresses env.bulkFetch [address])).1.contains
          (toLowerJS address) = true →
      addToWhitelistIfEligible env address auth' =
        ({ success := false,
           score := getKey (filterEligibleAddresses
             (getScoresByAddresses env.bulkFetch [address])).2 (toLowerJS address),
           error := some "Policy not configured" }, auth')) ∧
    (∀ (cfg cfg' : Config) (renv : ClaimRouteEnv) (req : ClaimRequest),
      cfg.ethosUsdToken = cfg'.ethosUsdToken →
      claimHandler cfg renv req = claimHandler cfg' renv req) := by
  have hempty : addresses.isEmpty = false := by
    cases addresses with
    | nil => exact absurd rfl hne
    | cons a l => rfl
  refine ⟨?_, ?_, ?_⟩
  · unfold syncWhitelist
    rw [hempty, hp]
    simp
  · intro address auth' hcont
    unfold addToWhitelistIfEligible
    simp only [hcont, hp]
    simp
  · intro cfg cfg' renv req h
    unfold claimHandler claimVerifyStage
    rw [h]

/-- Witness for C2: a concrete sync with policy id `0` refuses with the
configuration error and leaves the chain state untouched. -/
theorem C2_witness :
    (⟨0, .networkError "down", fun _ => false, fun _ _ => false⟩ : SyncEnv).policyId = 0 ∧
    (["0xA"] : List String) ≠ [] ∧
    syncWhitelist (⟨0, .networkError "down", fun _ => false, fun _ _ => false⟩ : SyncEnv)
        ["0xA"] (fun _ => false) =
      ({ checked := 1, added := [], removed := [], scores := [],
         errors := ["ETHOS_POLICY_ID not configured"] }, fun _ => false) :=
  ⟨rfl, by decide,
    (C2_zero_policy_sync_refuses_claim_ignores
      (⟨0, .networkError "down", fun _ => false, fun _ _ => false⟩ : SyncEnv)
      ["0xA"] (fun _ => false) rfl (by decide)).1⟩

/-- Counterexample for C2: with the configured policy id equal to the zero
sentinel, a fresh, validly signed, eligible claim request sails through the
claim route and mints — no configuration error is reported, contradicting
"both the whitelist sync operation and the claim operation refuse to
proceed". (The configuration handed to the handler is `zeroPolicyConfig`,
whose `policyId` is `0`.) -/
theorem C2_claim_route_ignores_zero_policy :
    zeroPolicyConfig.policyId = 0 ∧
    claimHandler zeroPolicyConfig sampleRoute
        ⟨some sampleAddress, some "0xsig", some 300000⟩ =
      { status := 200, success := true, error := none, mintAttempted := true,
        ledgerWritten := true, txHash := some "0xhash",
        amount := some 250000000 } :=
  ⟨rfl, rfl⟩

/-- C8 (confirmed): with all request fields present and well-formed, a
timestamp exactly at the freshness boundary (`now - t = MAX_SIGNATURE_AGE_MS`)
passes the gate — the handler proceeds to the signature-verification stage —
while a future timestamp or one strictly older than the window is rejected
with the signature-expired error, a 400 status, no mint attempt and no ledger
write. -/
theorem C8_signature_freshness_window (cfg : Config) (env : ClaimRouteEnv)
    (a s : String) (t : Int) (ha : a ≠ "") (hs : s ≠ "") (ht : t ≠ 0)
    (hv : isValidAddressFormat (toLowerJS a) = true) :
    (env.now - t = MAX_SIGNATURE_AGE_MS →
      claimHandler cfg env ⟨some a, some s, some t⟩ =
        claimVerifyStage cfg env (toLowerJS a)) ∧
    (t > env.now ∨ env.now - t > MAX_SIGNATURE_AGE_MS →
      claimHandler cfg env ⟨some a, some s, some t⟩ =
        { status := 400, success := false,
          error := some "Signature expired. Please try again.",
          mintAttempted := false, ledgerWritten := false, txHash := none,
          amount := none }) := by
  have hM : MAX_SIGNATURE_AGE_MS = 300000 := rfl
  constructor
  · intro hb
    have hfut : ¬ t > env.now := by omega
    have hold : ¬ env.now - t > MAX_SIGNATURE_AGE_MS := by omega
    unfold claimHandler
    simp [ha, hs, ht, hv, hfut, hold]
  · intro hb
    unfold claimHandler
    simp [ha, hs, ht, hv, hb]

/-- Witness for C8: with the clock at 300001 ms, the timestamp 1 ms sits
exactly at the five-minute boundary and is accepted (the handler reaches the
verification stage and, here, succeeds). -/
theorem C8_witness :
    (300001 : Int) - 1 = MAX_SIGNATURE_AGE_MS ∧
    claimHandler zeroPolicyConfig sampleRoute ⟨some sampleAddress, some "0xsig", some 1⟩ =
      claimVerifyStage zeroPolicyConfig sampleRoute (toLowerJS sampleAddress) :=
  ⟨rfl,
    (C8_signature_freshness_window zeroPolicyConfig sampleRoute sampleAddress
      "0xsig" 1 (by decide) (by decide) (by decide) (by decide)).1 rfl⟩

/-- Counterexample for C3: in `readFailEnv` the authorization read for the
first candidate `0xa` throws; the sync stops with the single top-level
`Sync failed` error and the second candidate `0xb` — eligible (score 1500)
and not yet authorized — is never processed (`added = []`, still
unauthorized), whereas the identical run without the read failure adds it.
This refutes "an on-chain authorization read failure aborts reconciliation
only for that single address ... while the remaining addresses are still
processed". -/
theorem C3_read_failure_blocks_rest :
    (syncWhitelist readFailEnv ["0xA", "0xB"] (fun _ => false)).1.added = [] ∧
    (syncWhitelist readFailEnv ["0xA", "0xB"] (fun _ => false)).1.errors =
      ["Sync failed: Error: isAuthorized read failed for 0xa"] ∧
    (syncWhitelist readFailEnv ["0xA", "0xB"] (fun _ => false)).2 "0xb" = false ∧
    (syncWhitelist readOkEnv ["0xA", "0xB"] (fun _ => false)).1.added = ["0xb"] :=
  ⟨rfl, rfl, rfl, rfl⟩

/-- C3 (corrected, amended): per-address failure isolation holds for the
*write* step — a throwing add or remove transaction only records its
`Failed to add/remove` error and the loop continues over the remaining
addresses with the chain state untouched — but a throwing authorization
*read* aborts the entire remaining sync: it records a single top-level
`Sync failed` error, leaves the chain state untouched, and the subsequent
addresses are not processed. -/
theorem C3_write_isolated_read_aborts (env : SyncEnv) (eligible : List String)
    (address : String) (rest : List String) (auth : String → Bool) :
    (env.readFails (toLowerJS address) = false →
      env.writeFails (toLowerJS address) true = true →
      eligible.contains (toLowerJS address) = true →
      auth (toLowerJS address) = false →
      syncLoop env eligible (address :: rest) auth =
        ((syncLoop env eligible rest auth).1,
         (syncLoop env eligible rest auth).2.1,
         ("Failed to add " ++ toLowerJS address) ::
           (syncLoop env eligible rest auth).2.2.1,
         (syncLoop env eligible rest auth).2.2.2)) ∧
    (env.readFails (toLowerJS address) = false →
      env.writeFails (toLowerJS address) false = true →
      eligible.contains (toLowerJS address) = false →
      auth (toLowerJS address) = true →
      syncLoop env eligible (address :: rest) auth =
        ((syncLoop env eligible rest auth).1,
         (syncLoop env eligible rest auth).2.1,
         ("Failed to remove " ++ toLowerJS address) ::
           (syncLoop env eligible rest auth).2.2.1,
         (syncLoop env eligible rest auth).2.2.2)) ∧
    (env.readFails (toLowerJS address) = true →
      syncLoop env eligible (address :: rest) auth =
        ([], [],
         ["Sync failed: Error: isAuthorized read failed for " ++ toLowerJS address],
         auth)) := by
  refine ⟨?_, ?_, ?_⟩
  · intro hr hw hc hauth
    simp only [syncLoop, hr, hc, hauth, hw]
    simp
  · intro hr hw hc hauth
    simp only [syncLoop, hr, hc, hauth, hw]
    simp
  · intro hr
    simp only [syncLoop, hr]
    simp

/-- Witness for C3: a concrete failed add for `0xa` is recorded while the
following address `0xb` is still processed and added. -/
theorem C3_witness :
    (⟨7, .response 200 (fun _ => some ⟨some 1500, none, none⟩),
       fun _ => false, fun x _ => x == "0xa"⟩ : SyncEnv).readFails
        (toLowerJS "0xA") = false ∧
    syncLoop
        (⟨7, .response 200 (fun _ => some ⟨some 1500, none, none⟩),
          fun _ => false, fun x _ => x == "0xa"⟩ : SyncEnv)
        ["0xa", "0xb"] ["0xA", "0xB"] (fun _ => false) =
      (["0xb"], [], ["Failed to add 0xa"],
        (syncLoop
          (⟨7, .response 200 (fun _ => some ⟨some 1500, none, none⟩),
            fun _ => false, fun x _ => x == "0xa"⟩ : SyncEnv)
          ["0xa", "0xb"] ["0xB"] (fun _ => false)).2.2.2) := by
  constructor
  · rfl
  · rw [(C3_write_isolated_read_aborts _ ["0xa", "0xb"] "0xA" ["0xB"]
      (fun _ => false)).1 rfl rfl rfl rfl]
    exact congrArg _ rfl

theorem claimFallback_not_eligible (env : ClaimsEnv) :
    ∃ st, claimFallback env = .ok st ∧ st.canClaim = false ∧ st.amount = 0 := by
  unfold claimFallback
  cases env.scoreData with
  | none => exact ⟨_, rfl, rfl, rfl⟩
  | some s => exact ⟨_, rfl, rfl, rfl⟩

theorem getClaimableAmount_xp_path (env : ClaimsEnv) (address : String)
    (u : EthosUserData) (hchain : hasClaimedOnChain env = false)
    (hlocal : getClaimRecord env address = none)
    (huser : env.userData = some u) :
    getClaimableAmount env address =
      (if u.xp.gtZero then
        match jsFloorToBigInt u.xp with
        | .error e => .error e
        | .ok f =>
          .ok { canClaim := true, amount := f * 1000000, xp := u.xp,
                score := some u.score, alreadyClaimed := false,
                claimRecord := none, error := none }
      else claimFallback env) := by
  unfold getClaimableAmount
  rw [hchain, hlocal, huser]
  simp

/-- Counterexample for C5: a positive-infinite XP value (reachable: JSON
`1e999` parses to `Infinity`, `Infinity > 0` holds, and
`BigInt(Math.floor(Infinity))` throws) is *not* "treated as 0, not eligible":
`getClaimableAmount` propagates a thrown `RangeError` instead of returning a
zero-amount, not-eligible status. -/
theorem C5_infinite_xp_throws :
    getClaimableAmount infXpClaims "0xD" =
      .error "RangeError: Cannot convert Infinity to a BigInt" := rfl

/-- C5 (corrected, amended): for a user with no prior claim, a finite
positive XP value `q` yields a claim of exactly `⌊q⌋ * 1_000_000` minor units
(fractional XP truncates, never rounds up, and the result is a function of
`q` alone, hence deterministic); finite non-positive XP and NaN XP yield no
claim with amount 0; but a positive-infinite XP makes the computation throw a
`RangeError` instead of being treated as 0. -/
theorem C5_claim_amount_floor (env : ClaimsEnv) (address : String)
    (u : EthosUserData) (hchain : hasClaimedOnChain env = false)
    (hlocal : getClaimRecord env address = none)
    (huser : env.userData = some u) :
    (∀ q : ℚ, u.xp = .fin q → 0 < q →
      getClaimableAmount env address =
        .ok { canClaim := true, amount := ⌊q⌋ * 1000000, xp := u.xp,
              score := some u.score, alreadyClaimed := false,
              claimRecord := none, error := none }) ∧
    (∀ q : ℚ, u.xp = .fin q → q ≤ 0 →
      ∃ st, getClaimableAmount env address = .ok st ∧
        st.canClaim = false ∧ st.amount = 0) ∧
    (u.xp = .nan →
      ∃ st, getClaimableAmount env address = .ok st ∧
        st.canClaim = false ∧ st.amount = 0) ∧
    (u.xp = .inf true →
      getClaimableAmount env address =
        .error "RangeError: Cannot convert Infinity to a BigInt") := by
  have hred := getClaimableAmount_xp_path env address u hchain hlocal huser
  refine ⟨?_, ?_, ?_, ?_⟩
  · intro q hq hpos
    rw [hred, hq]
    simp [JsNum.gtZero, jsFloorToBigInt, hpos]
  · intro q hq hle
    rw [hred, hq]
    have : JsNum.gtZero (.fin q) = false := by
      simp [JsNum.gtZero, not_lt.mpr hle]
    rw [this]
    simp only [Bool.false_eq_true, if_false]
    exact claimFallback_not_eligible env
  · intro hq
    rw [hred, hq]
    simp only [JsNum.gtZero, Bool.false_eq_true, if_false]
    exact claimFallback_not_eligible env
  · intro hq
    rw [hred, hq]
    simp [JsNum.gtZero, jsFloorToBigInt]

/-- Witness for C5: the 250.7-XP scenario — the claimable amount is exactly
`250 * 1_000_000`, not `250.7 *` or `251 *` the unit. -/
theorem C5_witness :
    hasClaimedOnChain (⟨.ok 0, [], some ⟨1500, .fin (2507/10 : ℚ), 3, 1, 2⟩, none⟩ : ClaimsEnv) = false ∧
    getClaimableAmount (⟨.ok 0, [], some ⟨1500, .fin (2507/10 : ℚ), 3, 1, 2⟩, none⟩ : ClaimsEnv) "0xD" =
      .ok { canClaim := true, amount := 250 * 1000000, xp := .fin (2507/10 : ℚ),
            score := some 1500, alreadyClaimed := false, claimRecord := none,
            error := none } := by
  constructor
  · rfl
  · have h := (C5_claim_amount_floor
      (⟨.ok 0, [], some ⟨1500, .fin (2507/10 : ℚ), 3, 1, 2⟩, none⟩ : ClaimsEnv)
      "0xD" ⟨1500, .fin (2507/10 : ℚ), 3, 1, 2⟩ rfl rfl rfl).1
      (2507/10 : ℚ) rfl (by norm_num)
    rw [h]
    norm_num

theorem syncWhitelist_eq (env : SyncEnv) (addresses : List String)
    (auth : String → Bool) (hE : addresses.isEmpty = false)
    (hp : env.policyId ≠ 0) :
    syncWhitelist env addresses auth =
      ({ checked := addresses.length,
         added := (syncLoop env
           (filterEligibleAddresses (getScoresByAddresses env.bulkFetch addresses)).1
           addresses auth).1,
         removed := (syncLoop env
           (filterEligibleAddresses (getScoresByAddresses env.bulkFetch addresses)).1
           addresses auth).2.1,
         scores := (filterEligibleAddresses (getScoresByAddresses env.bulkFetch addresses)).2,
         errors := (syncLoop env
           (filterEligibleAddresses (getScoresByAddresses env.bulkFetch addresses)).1
           addresses auth).2.2.1 },
       (syncLoop env
         (filterEligibleAddresses (getScoresByAddresses env.bulkFetch addresses)).1
         addresses auth).2.2.2) := by
  unfold syncWhitelist
  rw [hE, if_neg hp]
  simp

/-- Characterization of the loop's final chain state when no read or write
fails: every candidate's (lower-cased) address ends at its desired
authorization, and everything else is untouched. -/
theorem syncLoop_auth_char (env : SyncEnv) (eligible : List String)
    (l : List String) :
    ∀ (auth : String → Bool),
      (∀ a ∈ l, env.readFails (toLowerJS a) = false) →
      (∀ a ∈ l, ∀ b, env.writeFails (toLowerJS a) b = false) →
      ∀ x, (syncLoop env eligible l auth).2.2.2 x =
        if x ∈ l.map toLowerJS then eligible.contains x else auth x := by
  induction l with
  | nil =>
    intro auth _ _ x
    simp [syncLoop]
  | cons a l ih =>
    intro auth hr hw x
    have hra : env.readFails (toLowerJS a) = false := hr a (List.mem_cons_self a l)
    have hwa : ∀ b, env.writeFails (toLowerJS a) b = false :=
      hw a (List.mem_cons_self a l)
    have hrl : ∀ a' ∈ l, env.readFails (toLowerJS a') = false :=
      fun a' h => hr a' (List.mem_cons_of_mem a h)
    have hwl : ∀ a' ∈ l, ∀ b, env.writeFails (toLowerJS a') b = false :=
      fun a' h => hw a' (List.mem_cons_of_mem a h)
    have hmem : ∀ y, (y ∈ (a :: l).map toLowerJS) ↔
        (y = toLowerJS a ∨ y ∈ l.map toLowerJS) := by
      intro y
      simp
    cases hcn : eligible.contains (toLowerJS a) <;>
      cases han : auth (toLowerJS a)
    · -- not eligible, not authorized: no-op
      simp only [syncLoop, hra, hcn, han, Bool.not_true, Bool.not_false, Bool.false_and, Bool.true_and,
        Bool.and_false, Bool.and_true, Bool.false_eq_true, if_false, if_true]
      rw [ih auth hrl hwl x]
      by_cases hx : x ∈ l.map toLowerJS
      · rw [if_pos hx, if_pos ((hmem x).mpr (Or.inr hx))]
      · rw [if_neg hx]
        by_cases hxa : x = toLowerJS a
        · rw [if_pos ((hmem x).mpr (Or.inl hxa)), hxa, han, hcn]
        · rw [if_neg (fun h => ((hmem x).mp h).elim hxa hx)]
    · -- not eligible, authorized: remove
      simp only [syncLoop, hra, hcn, han, hwa, Bool.not_true, Bool.not_false, Bool.false_and, Bool.true_and,
        Bool.and_false, Bool.and_true, Bool.false_eq_true, if_false, if_true]
      rw [ih _ hrl hwl x]
      by_cases hx : x ∈ l.map toLowerJS
      · rw [if_pos hx, if_pos ((hmem x).mpr (Or.inr hx))]
      · rw [if_neg hx]
        by_cases hxa : x = toLowerJS a
        · rw [if_pos ((hmem x).mpr (Or.inl hxa)), if_pos hxa, hxa, hcn]
        · rw [if_neg hxa, if_neg (fun h => ((hmem x).mp h).elim hxa hx)]
    · -- eligible, not authorized: add
      simp only [syncLoop, hra, hcn, han, hwa, Bool.not_true, Bool.not_false, Bool.false_and, Bool.true_and,
        Bool.and_false, Bool.and_true, Bool.false_eq_true, if_false, if_true]
      rw [ih _ hrl hwl x]
      by_cases hx : x ∈ l.map toLowerJS
      · rw [if_pos hx, if_pos ((hmem x).mpr (Or.inr hx))]
      · rw [if_neg hx]
        by_cases hxa : x = toLowerJS a
        · rw [if_pos ((hmem x).mpr (Or.inl hxa)), if_pos hxa, hxa, hcn]
        · rw [if_neg hxa, if_neg (fun h => ((hmem x).mp h).elim hxa hx)]
    · -- eligible, authorized: no-op
      simp only [syncLoop, hra, hcn, han, Bool.not_true, Bool.not_false, Bool.false_and, Bool.true_and,
        Bool.and_false, Bool.and_true, Bool.false_eq_true, if_false, if_true]
      rw [ih auth hrl hwl x]
      by_cases hx : x ∈ l.map toLowerJS
      · rw [if_pos hx, if_pos ((hmem x).mpr (Or.inr hx))]
      · rw [if_neg hx]
        by_cases hxa : x = toLowerJS a
        · rw [if_pos ((hmem x).mpr (Or.inl hxa)), hxa, han, hcn]
        · rw [if_neg (fun h => ((hmem x).mp h).elim hxa hx)]

/-- When every candidate is already at its desired authorization and no read
fails, the loop is a pure no-op: nothing added, removed or reported, chain
state unchanged. -/
theorem syncLoop_stable (env : SyncEnv) (eligible : List String)
    (l : List String) :
    ∀ (auth : String → Bool),
      (∀ a ∈ l, env.readFails (toLowerJS a) = false) →
      (∀ a ∈ l, auth (toLowerJS a) = eligible.contains (toLowerJS a)) →
      syncLoop env eligible l auth = ([], [], [], auth) := by
  induction l with
  | nil =>
    intro auth _ _
    rfl
  | cons a l ih =>
    intro auth hr hstb
    have hra : env.readFails (toLowerJS a) = false := hr a (List.mem_cons_self a l)
    have ha : auth (toLowerJS a) = eligible.contains (toLowerJS a) :=
      hstb a (List.mem_cons_self a l)
    have htail : syncLoop env eligible l auth = ([], [], [], auth) :=
      ih auth (fun a' h => hr a' (List.mem_cons_of_mem a h))
        (fun a' h => hstb a' (List.mem_cons_of_mem a h))
    cases hcn : eligible.contains (toLowerJS a) <;> rw [hcn] at ha
    · simp only [syncLoop, hra, hcn, ha, Bool.not_true, Bool.not_false, Bool.false_and, Bool.true_and,
        Bool.and_false, Bool.and_true, Bool.false_eq_true, if_false, if_true]
      exact htail
    · simp only [syncLoop, hra, hcn, ha, Bool.not_true, Bool.not_false, Bool.false_and, Bool.true_and,
        Bool.and_false, Bool.and_true, Bool.false_eq_true, if_false, if_true]
      exact htail

/-- C9 (confirmed): reconciliation is idempotent — with the policy configured
and no read or write failing (all first-run writes confirmed), running
`syncWhitelist` twice over the same candidates against the same provider
snapshot leaves the second run with empty `added` and `removed` lists. -/
theorem C9_sync_idempotent (env : SyncEnv) (addresses : List String)
    (auth : String → Bool) (hp : env.policyId ≠ 0)
    (hr : ∀ a ∈ addresses, env.readFails (toLowerJS a) = false)
    (hw : ∀ a ∈ addresses, ∀ b, env.writeFails (toLowerJS a) b = false) :
    (syncWhitelist env addresses
        ((syncWhitelist env addresses auth).2)).1.added = [] ∧
    (syncWhitelist env addresses
        ((syncWhitelist env addresses auth).2)).1.removed = [] := by
  cases hE : addresses.isEmpty with
  | true =>
    have hnil : addresses = [] := by
      cases addresses with
      | nil => rfl
      | cons a l => simp at hE
    subst hnil
    exact ⟨rfl, rfl⟩
  | false =>
    rw [syncWhitelist_eq env addresses auth hE hp,
      syncWhitelist_eq env addresses _ hE hp]
    have hstb : ∀ a ∈ addresses,
        (syncLoop env
          (filterEligibleAddresses (getScoresByAddresses env.bulkFetch addresses)).1
          addresses auth).2.2.2 (toLowerJS a) =
        (filterEligibleAddresses (getScoresByAddresses env.bulkFetch addresses)).1.contains
          (toLowerJS a) := by
      intro a hA
      rw [syncLoop_auth_char env _ addresses auth hr hw (toLowerJS a),
        if_pos (List.mem_map_of_mem toLowerJS hA)]
    rw [syncLoop_stable env _ addresses _ hr hstb]
    exact ⟨rfl, rfl⟩

/-- Witness for C9: a concrete two-address second run adds and removes
nothing. -/
theorem C9_witness :
    (syncWhitelist readOkEnv ["0xA", "0xB"]
        ((syncWhitelist readOkEnv ["0xA", "0xB"] (fun _ => false)).2)).1.added = [] ∧
    (syncWhitelist readOkEnv ["0xA", "0xB"]
        ((syncWhitelist readOkEnv ["0xA", "0xB"] (fun _ => false)).2)).1.removed = [] :=
  C9_sync_idempotent readOkEnv ["0xA", "0xB"] (fun _ => false) (by decide)
    (by decide) (by decide)

/-! ### Digit-string lemmas for the amount round-trip -/

theorem digitChar_toNat (d : Nat) (h : d < 10) : (digitChar d).toNat = 48 + d := by
  interval_cases d <;> rfl

theorem isDigitCh_digitChar (d : Nat) (h : d < 10) :
    isDigitCh (digitChar d) = true := by
  unfold isDigitCh
  rw [digitChar_toNat d h]
  simp only [Bool.and_eq_true, decide_eq_true_eq]
  omega

theorem isDigitCh_ne_dot (c : Char) (h : isDigitCh c = true) : ¬ c = '.' := by
  intro he
  subst he
  exact absurd h (by decide)

theorem strVal_foldl (t : List Char) : ∀ a : Nat,
    t.foldl (fun acc c => 10 * acc + (c.toNat - 48)) a =
      a * 10 ^ t.length + strVal t := by
  induction t with
  | nil => intro a; simp [strVal]
  | cons c t ih =>
    intro a
    simp only [List.foldl_cons, List.length_cons, strVal]
    rw [ih (10 * a + (c.toNat - 48)), ih (10 * 0 + (c.toNat - 48))]
    ring

theorem strVal_append (s t : List Char) :
    strVal (s ++ t) = strVal s * 10 ^ t.length + strVal t := by
  unfold strVal
  rw [List.foldl_append]
  exact strVal_foldl t _

theorem strVal_replicate_zero (k : Nat) : strVal (List.replicate k '0') = 0 := by
  induction k with
  | zero => rfl
  | succ k ih =>
    rw [List.replicate_succ]
    unfold strVal at ih ⊢
    simp only [List.foldl_cons]
    simpa using ih

theorem toDigitsRev_eq_digits : ∀ (fuel n : Nat), n ≤ fuel →
    toDigitsRev fuel n = Nat.digits 10 n := by
  intro fuel
  induction fuel with
  | zero =>
    intro n h
    have hn : n = 0 := Nat.le_zero.mp h
    subst hn
    simp [toDigitsRev]
  | succ fuel ih =>
    intro n h
    by_cases hn : n = 0
    · subst hn
      simp [toDigitsRev]
    · rw [Nat.digits_def' (by norm_num : (1:Nat) < 10) (Nat.pos_of_ne_zero hn)]
      show toDigitsRev (fuel + 1) n = _
      rw [toDigitsRev, if_neg hn]
      congr 1
      refine ih (n / 10) ?_
      have : n / 10 < n := Nat.div_lt_self (Nat.pos_of_ne_zero hn) (by norm_num)
      omega

theorem strVal_reverse_map (l : List Nat) (hl : ∀ d ∈ l, d < 10) :
    strVal (l.reverse.map digitChar) = Nat.ofDigits 10 l := by
  induction l with
  | nil => rfl
  | cons d l ih =>
    have hd : d < 10 := hl d (List.mem_cons_self _ _)
    have hl' : ∀ x ∈ l, x < 10 := fun x h => hl x (List.mem_cons_of_mem _ h)
    rw [List.reverse_cons, List.map_append, strVal_append]
    simp only [List.map_cons, List.map_nil, List.length_cons, List.length_nil]
    rw [ih hl', Nat.ofDigits_cons]
    have hone : strVal [digitChar d] = d := by
      unfold strVal
      simp [digitChar_toNat d hd]
    rw [hone]
    push_cast
    ring

theorem natToString_all_digits (n : Nat) :
    ∀ c ∈ natToString n, isDigitCh c = true := by
  intro c hc
  unfold natToString at hc
  by_cases hn : n = 0
  · rw [if_pos hn] at hc
    simp at hc
    subst hc
    rfl
  · rw [if_neg hn, toDigitsRev_eq_digits n n le_rfl] at hc
    rcases List.mem_map.mp hc with ⟨d, hd, rfl⟩
    exact isDigitCh_digitChar d
      (Nat.digits_lt_base (by norm_num) (List.mem_reverse.mp hd))

theorem strVal_natToString (n : Nat) : strVal (natToString n) = n := by
  unfold natToString
  by_cases hn : n = 0
  · rw [if_pos hn, hn]
    rfl
  · rw [if_neg hn, toDigitsRev_eq_digits n n le_rfl,
      strVal_reverse_map _ (fun d hd => Nat.digits_lt_base (by norm_num) hd)]
    exact Nat.ofDigits_digits 10 n

theorem natToString_length_le (n k : Nat) (hk : 1 ≤ k) (h : n < 10 ^ k) :
    (natToString n).length ≤ k := by
  unfold natToString
  by_cases hn : n = 0
  · rw [if_pos hn]
    simpa using hk
  · rw [if_neg hn, toDigitsRev_eq_digits n n le_rfl, List.length_map,
      List.length_reverse, Nat.digits_len 10 n (by norm_num) hn]
    have := Nat.log_lt_of_lt_pow hn h
    omega

theorem groupRev_short (l : List Char) (h : l.length ≤ 3) : groupRev l = l := by
  rcases l with _ | ⟨a, _ | ⟨b, _ | ⟨c, _ | ⟨d, t⟩⟩⟩⟩
  · rfl
  · rfl
  · rfl
  · rfl
  · exfalso
    simp [List.length_cons] at h

theorem natToLocaleString_short (n : Nat) (h : n < 1000) :
    natToLocaleString n = natToString n := by
  have h3 : (10:Nat) ^ 3 = 1000 := by norm_num
  unfold natToLocaleString
  rw [groupRev_short _ (by
    rw [List.length_reverse]
    exact natToString_length_le n 3 (by norm_num) (by rw [h3]; exact h))]
  exact List.reverse_reverse _

theorem splitAtDot_no_dot (s : List Char) (h : ∀ c ∈ s, ¬ c = '.') :
    splitAtDot s = (s, none) := by
  induction s with
  | nil => rfl
  | cons c s ih =>
    unfold splitAtDot
    rw [if_neg (h c (List.mem_cons_self _ _)),
      ih (fun x hx => h x (List.mem_cons_of_mem _ hx))]

theorem splitAtDot_append (s t : List Char) (h : ∀ c ∈ s, ¬ c = '.') :
    splitAtDot (s ++ '.' :: t) = (s, some t) := by
  induction s with
  | nil => simp [splitAtDot]
  | cons c s ih =>
    show splitAtDot (c :: (s ++ '.' :: t)) = _
    unfold splitAtDot
    rw [if_neg (h c (List.mem_cons_self _ _)),
      ih (fun x hx => h x (List.mem_cons_of_mem _ hx))]

theorem stripTrailingZeros_decomp (s : List Char) :
    ∃ k, s = stripTrailingZeros s ++ List.replicate k '0' ∧
      (stripTrailingZeros s).length + k = s.length := by
  have hsplit := List.takeWhile_append_dropWhile (fun c => decide (c = '0')) s.reverse
  have htake : List.takeWhile (fun c => decide (c = '0')) s.reverse =
      List.replicate (List.takeWhile (fun c => decide (c = '0')) s.reverse).length '0' := by
    apply List.eq_replicate_of_mem
    intro b hb
    simpa using List.mem_takeWhile_imp hb
  refine ⟨(List.takeWhile (fun c => decide (c = '0')) s.reverse).length, ?_, ?_⟩
  · conv_lhs => rw [← List.reverse_reverse s, ← hsplit]
    rw [List.reverse_append]
    unfold stripTrailingZeros
    congr 1
    conv_lhs => rw [htake]
    exact List.reverse_replicate _ _
  · have hlen : s.reverse.length =
        (List.takeWhile (fun c => decide (c = '0')) s.reverse).length +
        (List.dropWhile (fun c => decide (c = '0')) s.reverse).length := by
      conv_lhs => rw [← hsplit]
      rw [List.length_append]
    unfold stripTrailingZeros
    rw [List.length_reverse]
    rw [List.length_reverse] at hlen
    omega

theorem strVal_padStartZeros (k : Nat) (s : List Char) :
    strVal (padStartZeros k s) = strVal s := by
  unfold padStartZeros
  rw [strVal_append, strVal_replicate_zero]
  simp

theorem parseTokenAmount_digits (s : List Char)
    (hdig : ∀ c ∈ s, isDigitCh c = true) :
    parseTokenAmount ⟨s⟩ = .ok (strVal s * 10 ^ 6) := by
  simp only [parseTokenAmount]
  rw [splitAtDot_no_dot s (fun c hc => isDigitCh_ne_dot c (hdig c hc))]
  simp only [List.nil_append, Nat.sub_zero, List.take_replicate, min_self,
    List.length_nil]
  unfold parseBigInt
  rw [if_pos (by
    rw [List.all_eq_true]
    intro c hc
    rcases List.mem_append.mp hc with h1 | h2
    · exact hdig c h1
    · rw [List.eq_of_mem_replicate h2]
      rfl)]
  rw [strVal_append, strVal_replicate_zero, List.length_replicate,
    Nat.add_zero]

theorem parseTokenAmount_with_frac (s t : List Char)
    (hs : ∀ c ∈ s, isDigitCh c = true) (ht : ∀ c ∈ t, isDigitCh c = true)
    (hlen : t.length ≤ 6) :
    parseTokenAmount ⟨s ++ '.' :: t⟩ =
      .ok (strVal s * 10 ^ 6 +
        strVal (t ++ List.replicate (6 - t.length) '0')) := by
  have hfull : (t ++ List.replicate (6 - t.length) '0').length = 6 := by
    rw [List.length_append, List.length_replicate]
    omega
  simp only [parseTokenAmount]
  rw [splitAtDot_append s t (fun c hc => isDigitCh_ne_dot c (hs c hc))]
  simp only []
  rw [splitAtDot_no_dot t (fun c hc => isDigitCh_ne_dot c (ht c hc))]
  simp only []
  rw [List.take_of_length_le (Nat.le_of_eq hfull)]
  unfold parseBigInt
  rw [if_pos (by
    rw [List.all_eq_true]
    intro c hc
    rcases List.mem_append.mp hc with h1 | h2
    · exact hs c h1
    · rcases List.mem_append.mp h2 with h3 | h4
      · exact ht c h3
      · rw [List.eq_of_mem_replicate h4]
        rfl)]
  rw [strVal_append, hfull]

/-- Counterexample for C7: at 1000 whole tokens (`n = 10^9` minor units) the
formatter's `toLocaleString()` inserts a group separator, producing `"1,000"`,
and parsing that output throws instead of returning `n` — so
`parse(format(n)) = n` does *not* hold for every in-range non-negative
integer. -/
theorem C7_grouping_breaks_roundtrip :
    formatTokenAmount 1000000000 = "1,000" ∧
    parseTokenAmount (formatTokenAmount 1000000000) =
      .error "SyntaxError: Cannot convert string to a BigInt" :=
  ⟨rfl, rfl⟩

/-- C7 (corrected, amended): formatting and parsing are inverses for every
non-negative amount below `10^9` minor units — exactly the range in which the
integer part stays below 1000 and `toLocaleString()` inserts no group
separators. From `10^9` minor units (1000 whole tokens) upward the grouped
output no longer parses. -/
theorem C7_roundtrip_below_grouping (n : Nat) (h : n < 1000000000) :
    parseTokenAmount (formatTokenAmount n) = .ok n := by
  have e6 : (10:Nat) ^ 6 = 1000000 := by norm_num
  have hip : n / 1000000 < 1000 := by omega
  have hfp : n % 1000000 < 1000000 := by omega
  have hloc : natToLocaleString (n / 1000000) = natToString (n / 1000000) :=
    natToLocaleString_short _ hip
  simp only [formatTokenAmount, e6]
  by_cases hz : n % 1000000 = 0
  · rw [if_pos hz, hloc]
    rw [parseTokenAmount_digits _ (natToString_all_digits _)]
    rw [strVal_natToString, e6]
    congr 1
    omega
  · rw [if_neg hz, hloc]
    set pad := padStartZeros 6 (natToString (n % 1000000)) with hpad
    have hnslen : (natToString (n % 1000000)).length ≤ 6 :=
      natToString_length_le _ 6 (by norm_num) (by rw [e6]; exact hfp)
    have hpadlen : pad.length = 6 := by
      rw [hpad]
      unfold padStartZeros
      rw [List.length_append, List.length_replicate]
      omega
    have hpaddig : ∀ c ∈ pad, isDigitCh c = true := by
      intro c hc
      rw [hpad] at hc
      unfold padStartZeros at hc
      rcases List.mem_append.mp hc with h1 | h2
      · rw [List.eq_of_mem_replicate h1]
        rfl
      · exact natToString_all_digits _ c h2
    rcases stripTrailingZeros_decomp pad with ⟨k, hdecomp, hklen⟩
    have hstripdig : ∀ c ∈ stripTrailingZeros pad, isDigitCh c = true := by
      intro c hc
      exact hpaddig c (hdecomp ▸ List.mem_append_left _ hc)
    have hstriplen : (stripTrailingZeros pad).length ≤ 6 := by omega
    rw [parseTokenAmount_with_frac _ _ (natToString_all_digits _) hstripdig
      hstriplen]
    have hk : 6 - (stripTrailingZeros pad).length = k := by omega
    rw [hk, ← hdecomp, strVal_natToString]
    have hsv : strVal pad = n % 1000000 := by
      rw [hpad, strVal_padStartZeros]
      exact strVal_natToString _
    rw [hsv, e6]
    congr 1
    omega

/-- Witness for C7: the round-trip at the concrete in-range amount
`123456700` (formatted `"123.4567"`). -/
theorem C7_witness :
    (123456700 : Nat) < 1000000000 ∧
    parseTokenAmount (formatTokenAmount 123456700) = .ok 123456700 :=
  ⟨by norm_num, C7_roundtrip_below_grouping 123456700 (by norm_num)⟩

end EthosUSD
